import Mathlib

/-!
Shallow embedding of the Competitive Intelligence Analyzer (analyzer module:
validateCreatorForAnalysis, analyzeCompetitiveLandscape, benchmarkCreator,
analyzeContentStrategy, getTier, getPercentileLabel, generateInsights,
generateBenchmarkRecommendations), together with proofs about it.

Modelling conventions:
- JavaScript numbers are modelled as exact rationals (counts as integers);
  Math.round(x) is the floor of x + 1/2, which matches its round-half-up
  behaviour on exact values.
- The JavaScript expression `v || d` applied to a possibly-missing numeric
  field is modelled by jsOr: a missing field or the (falsy) value 0 gives
  the default d, every other value is kept, including negative ones.
- A possibly-undefined object is an Option; dereferencing a field of an
  undefined object is a thrown TypeError, modelled by the JsError type.
  An Error constructed and thrown on purpose by program code is the other
  constructor of JsError; the analyzer never produces one.
- Division of a nonzero numerator by zero yields Infinity, and 0/0 yields
  NaN; the only place the analyzer can divide by zero (the gap-to-leader
  percentage) is modelled by the JsNum type.  Divisions whose denominator
  is provably nonzero on every reachable call are modelled directly in the
  rationals.  The averages inside the two generator leaf functions divide
  by the length of a list that is nonempty on every reachable call.
- Human-readable message strings that merely interpolate already-computed
  numbers (recommendation action/impact text, insight messages) are
  abstracted into structured payloads carrying those numbers.
- Array.prototype.sort with a (b, a) => key(b) - key(a) comparator is a
  stable descending sort; it is embedded as a stable insertion sort.
-/

/-- Math.round on an exact rational: round half toward positive infinity. -/
def jsRound (q : ℚ) : ℤ := ⌊q + 1/2⌋

/-- JS `v || d` for an optional integer field: undefined and 0 are falsy. -/
def jsOr (v : Option ℤ) (d : ℤ) : ℤ :=
  match v with
  | none => d
  | some x => if x = 0 then d else x

/-- JS `v || d` for an optional rational field: undefined and 0 are falsy. -/
def jsOrQ (v : Option ℚ) (d : ℚ) : ℚ :=
  match v with
  | none => d
  | some x => if x = 0 then d else x

/-- JS Array.prototype.findIndex: index of the first match, or -1. -/
def jsFindIndex {α : Type} (p : α → Bool) (l : List α) : ℤ :=
  match l.findIdx? p with
  | some i => (i : ℤ)
  | none => -1

/-- A JS number that may be non-finite (result of dividing by zero). -/
inductive JsNum where
  | num : ℚ → JsNum
  | nan : JsNum
  | posInf : JsNum
  | negInf : JsNum
deriving DecidableEq, Repr, Inhabited

/-- A JS exception: either a runtime TypeError raised when a property of
undefined is dereferenced, or an Error explicitly constructed and thrown
by program code (e.g. input validation in a caller). -/
inductive JsError where
  | typeError : String → JsError
  | thrown : String → JsError
deriving DecidableEq, Repr

/-- True exactly for an Error explicitly thrown by program code. -/
def JsError.isExplicitThrow : JsError → Bool
  | .thrown _ => true
  | .typeError _ => false

/-- Message of the TypeError raised when a property of an undefined creator
record is read (the totals reduce reads c.followers on every element). -/
def undefinedCreatorMsg : String := "Cannot read properties of undefined (reading followers)"

/-- Message of the TypeError raised when .find is read on the undefined
competitors field of a landscape error result. -/
def undefinedFindMsg : String := "Cannot read properties of undefined (reading find)"

/-- Message of the TypeError raised when .rank is read on an undefined
target analysis. -/
def undefinedRankMsg : String := "Cannot read properties of undefined (reading rank)"

/-- Error message of the landscape analyzer for fewer than two creators. -/
def needTwoMsg : String := "Need at least 2 creators for competitive analysis"

/-- Input creator profile, externally supplied.  Numeric fields may be
missing (undefined in JS); boolean flags are truthiness-abstracted. -/
structure CreatorProfile where
  username : String
  nickname : String := ""
  verified : Bool := false
  followers : Option ℤ := none
  likes : Option ℤ := none
  videos : Option ℤ := none
  engagementRate : Option ℚ := none
  accountAgeDays : Option ℤ := none
  bioLink : Bool := false
  commerceUser : Bool := false
  ttSeller : Bool := false
deriving DecidableEq, Repr, Inhabited

/-- Result of validateCreatorForAnalysis. -/
structure Validation where
  isValid : Bool
  errors : List String
deriving DecidableEq, Repr

/-- validateCreatorForAnalysis: flags nulls and negative counts; the
caller only logs the outcome and proceeds with the data as-is. -/
def validateCreatorForAnalysis (creator : Option CreatorProfile) : Validation :=
  match creator with
  | none => { isValid := false, errors := ["Creator is null/undefined"] }
  | some c =>
    let errors : List String :=
      (if (match c.followers with | some f => decide (f < 0) | none => false) then
        ["Followers cannot be negative"] else []) ++
      (if (match c.likes with | some l => decide (l < 0) | none => false) then
        ["Likes cannot be negative"] else []) ++
      (if (match c.videos with | some v => decide (v < 0) | none => false) then
        ["Video count cannot be negative"] else []) ++
      (if (match c.accountAgeDays with | some a => decide (a < 0) | none => false) then
        ["Account age cannot be negative"] else [])
    { isValid := errors.isEmpty, errors := errors }

/-- Core metrics of a derived competitor analysis. -/
structure Metrics where
  followers : ℤ
  likes : ℤ
  videos : ℤ
  engagementRate : ℚ
  accountAgeDays : ℤ
deriving DecidableEq, Repr, Inhabited

/-- Follower-based market share of the analyzed set totals, in percent. -/
structure MarketShare where
  followers : ℚ
  likes : ℚ
deriving DecidableEq, Repr, Inhabited

/-- Linear growth velocity projections. -/
structure Growth where
  followersPerDay : ℤ
  followersPerMonth : ℤ
  videosPerMonth : ℚ
deriving DecidableEq, Repr, Inhabited

/-- Content strategy signals from analyzeContentStrategy. -/
structure ContentStrategy where
  postingStrategy : String
  videosPerMonth : ℚ
  avgLikesPerVideo : ℤ
  hasExternalLinks : Bool
  isVerified : Bool
  isCommerce : Bool
deriving DecidableEq, Repr, Inhabited

/-- Derived per-creator analysis.  The rank field is 0 until the ranking
pass assigns position + 1 in the canonical followers-descending order. -/
structure CompetitorAnalysis where
  username : String
  nickname : String
  verified : Bool
  metrics : Metrics
  marketShare : MarketShare
  growth : Growth
  contentStrategy : ContentStrategy
  tier : String
  rank : ℕ
deriving DecidableEq, Repr, Inhabited

/-- Severity of a generated insight. -/
inductive Severity where
  | info
  | warning
  | opportunity
deriving DecidableEq, Repr

/-- A qualitative insight; the interpolated message text is abstracted. -/
structure Insight where
  type : String
  severity : Severity
deriving DecidableEq, Repr

/-- Priority of a recommendation. -/
inductive Priority where
  | high
  | medium
  | low
deriving DecidableEq, Repr

/-- Structured payload of a recommendation: the branch that produced it and
the numbers its action/impact strings interpolate. -/
inductive RecPayload where
  | improveEngagement (current avg : ℚ)
  | maintainEngagement (current avg : ℚ)
  | increasePostingFreq (current : ℚ) (targetFreq : ℤ)
  | overtakeLeader (monthsToLeader : ℤ)
  | closeGap (gapMillions : ℚ) (targetGrowth leaderGrowth : ℤ)
  | pursueVerification
deriving DecidableEq, Repr

/-- A recommendation emitted by generateBenchmarkRecommendations. -/
structure Recommendation where
  category : String
  priority : Priority
  payload : RecPayload
deriving DecidableEq, Repr

/-- analyzeContentStrategy: posting-strategy classification and signals. -/
def analyzeContentStrategy (creator : CreatorProfile) : ContentStrategy :=
  let videos := jsOr creator.videos 0
  let accountAgeDays := jsOr creator.accountAgeDays 365
  let likes := jsOr creator.likes 0
  let videosPerMonth : ℚ := (videos : ℚ) / (accountAgeDays : ℚ) * 30
  let avgLikesPerVideo : ℚ := if videos > 0 then (likes : ℚ) / (videos : ℚ) else 0
  let postingStrategy : String :=
    if videosPerMonth ≥ 60 then "high-volume"
    else if videosPerMonth ≥ 20 then "consistent"
    else if videosPerMonth ≥ 5 then "moderate"
    else "quality-focused"
  { postingStrategy := postingStrategy
    videosPerMonth := (jsRound (videosPerMonth * 10) : ℚ) / 10
    avgLikesPerVideo := jsRound avgLikesPerVideo
    hasExternalLinks := creator.bioLink
    isVerified := creator.verified
    isCommerce := creator.commerceUser || creator.ttSeller }

/-- getTier: coarse follower tier, thresholds evaluated top-down. -/
def getTier (followers : ℤ) : String :=
  if followers ≥ 1000000 then "mega"
  else if followers ≥ 500000 then "macro"
  else if followers ≥ 100000 then "mid-tier"
  else if followers ≥ 10000 then "micro"
  else "nano"

/-- getPercentileLabel: percentile bucket label, thresholds top-down. -/
def getPercentileLabel (percentile : ℤ) : String :=
  if percentile ≥ 90 then "Top 10%"
  else if percentile ≥ 75 then "Top 25%"
  else if percentile ≥ 50 then "Above Average"
  else if percentile ≥ 25 then "Below Average"
  else "Bottom 25%"

/-- Stable descending insertion step: a is placed before the first element
whose key is not strictly greater, so earlier input order wins ties. -/
def insertDescBy {α : Type} (key : α → ℚ) (a : α) : List α → List α
  | [] => [a]
  | b :: bs => if key b > key a then b :: insertDescBy key a bs else a :: b :: bs

/-- Stable descending sort by a rational key, the embedding of
Array.prototype.sort with comparator (a, b) => key(b) - key(a). -/
def sortDescBy {α : Type} (key : α → ℚ) : List α → List α
  | [] => []
  | a :: as => insertDescBy key a (sortDescBy key as)

/-- Sum of `c.followers || 0` over the input list. -/
def totalFollowersOf (creators : List CreatorProfile) : ℤ :=
  (creators.map (fun c => jsOr c.followers 0)).sum

/-- Sum of `c.likes || 0` over the input list. -/
def totalLikesOf (creators : List CreatorProfile) : ℤ :=
  (creators.map (fun c => jsOr c.likes 0)).sum

/-- Per-creator analysis body of the map inside analyzeCompetitiveLandscape
(the validation call there only logs warnings and changes nothing). -/
def analyzeOne (totalFollowers totalLikes : ℤ) (creator : CreatorProfile) :
    CompetitorAnalysis :=
  let followers := jsOr creator.followers 0
  let likes := jsOr creator.likes 0
  let engagementRate := jsOrQ creator.engagementRate 0
  let videos := jsOr creator.videos 0
  let accountAgeDays := jsOr creator.accountAgeDays 365
  { username := creator.username
    nickname := creator.nickname
    verified := creator.verified
    metrics := {
      followers := followers
      likes := likes
      videos := videos
      engagementRate := (jsRound (engagementRate * 100) : ℚ) / 100
      accountAgeDays := accountAgeDays }
    marketShare := {
      followers := if totalFollowers > 0 then
          (jsRound ((followers : ℚ) / (totalFollowers : ℚ) * 10000) : ℚ) / 100 else 0
      likes := if totalLikes > 0 then
          (jsRound ((likes : ℚ) / (totalLikes : ℚ) * 10000) : ℚ) / 100 else 0 }
    growth := {
      followersPerDay := jsRound ((followers : ℚ) / (accountAgeDays : ℚ))
      followersPerMonth := jsRound ((followers : ℚ) / (accountAgeDays : ℚ) * 30)
      videosPerMonth := (jsRound ((videos : ℚ) / (accountAgeDays : ℚ) * 30 * 10) : ℚ) / 10 }
    contentStrategy := analyzeContentStrategy creator
    tier := getTier followers
    rank := 0 }

/-- The derived analyses of the input list, in input order, before sorting. -/
def derivedAnalyses (creators : List CreatorProfile) : List CompetitorAnalysis :=
  creators.map (analyzeOne (totalFollowersOf creators) (totalLikesOf creators))

/-- Ranking pass: forEach((c, i) => c.rank = i + 1) on the sorted list. -/
def rankAssign (l : List CompetitorAnalysis) : List CompetitorAnalysis :=
  l.enum.map (fun p => { p.2 with rank := p.1 + 1 })

/-- Key for the canonical sort: followers descending. -/
def followersKey (c : CompetitorAnalysis) : ℚ := (c.metrics.followers : ℚ)

/-- Key for the engagement re-sorts: engagementRate descending. -/
def engagementKey (c : CompetitorAnalysis) : ℚ := c.metrics.engagementRate

/-- Key for the growth re-sorts: followersPerMonth descending. -/
def growthKey (c : CompetitorAnalysis) : ℚ := (c.growth.followersPerMonth : ℚ)

/-- mean of followersPerMonth over a list of analyses (avgGrowth in the
insight generator; its caller always passes a nonempty list). -/
def avgGrowthOf (competitors : List CompetitorAnalysis) : ℚ :=
  ((competitors.map (fun c => c.growth.followersPerMonth)).sum : ℚ) / (competitors.length : ℚ)

/-- generateInsights: the five rules, evaluated and emitted in fixed order.
Each pushes at most one insight; message strings are abstracted. -/
def generateInsights (competitors : List CompetitorAnalysis)
    (leader : CompetitorAnalysis) (challenger : Option CompetitorAnalysis)
    (fastestGrowing highestEngagement : CompetitorAnalysis) : List Insight :=
  (if leader.marketShare.followers > 50 then
    [{ type := "market_dominance", severity := .info }] else []) ++
  (match challenger with
    | some ch =>
      if ch.growth.followersPerMonth > leader.growth.followersPerMonth then
        [{ type := "challenger_rising", severity := .warning }] else []
    | none => []) ++
  (if highestEngagement.username ≠ leader.username then
    [{ type := "engagement_opportunity", severity := .opportunity }] else []) ++
  (if (fastestGrowing.growth.followersPerMonth : ℚ) > avgGrowthOf competitors * 2 then
    [{ type := "growth_outlier", severity := .info }] else []) ++
  (if ((competitors.map (fun c => c.contentStrategy.postingStrategy)).dedup).length = 1 then
    [{ type := "strategy_uniformity", severity := .opportunity }] else [])

/-- generateBenchmarkRecommendations: the four rules in fixed order.  The
callers always pass a nonempty competitor list (all creators except those
sharing the target username, of at least two). -/
def generateBenchmarkRecommendations (target : CompetitorAnalysis)
    (competitors : List CompetitorAnalysis) (leader : CompetitorAnalysis) :
    List Recommendation :=
  let avgCompetitorEngagement : ℚ :=
    (competitors.map (fun c => c.metrics.engagementRate)).sum / (competitors.length : ℚ)
  let engagementRec : Recommendation :=
    if target.metrics.engagementRate < avgCompetitorEngagement then
      { category := "Engagement", priority := .high
        payload := .improveEngagement target.metrics.engagementRate avgCompetitorEngagement }
    else
      { category := "Engagement", priority := .low
        payload := .maintainEngagement target.metrics.engagementRate avgCompetitorEngagement }
  let avgPostingFreq : ℚ :=
    (competitors.map (fun c => c.growth.videosPerMonth)).sum / (competitors.length : ℚ)
  let contentRecs : List Recommendation :=
    if target.growth.videosPerMonth < avgPostingFreq * (7/10) then
      [{ category := "Content Volume", priority := .medium
         payload := .increasePostingFreq target.growth.videosPerMonth (jsRound avgPostingFreq) }]
    else []
  let growthRecs : List Recommendation :=
    if target.username ≠ leader.username then
      let followerGap := leader.metrics.followers - target.metrics.followers
      let growthDifference := target.growth.followersPerMonth - leader.growth.followersPerMonth
      if growthDifference > 100 then
        [{ category := "Growth", priority := .low
           payload := .overtakeLeader (min (jsRound ((followerGap : ℚ) / (growthDifference : ℚ))) 24) }]
      else
        [{ category := "Growth", priority := .high
           payload := .closeGap ((jsRound ((followerGap : ℚ) / 1000000 * 10) : ℚ) / 10)
             target.growth.followersPerMonth leader.growth.followersPerMonth }]
    else []
  let credibilityRecs : List Recommendation :=
    if !target.verified && competitors.any (fun c => c.verified) then
      [{ category := "Credibility", priority := .medium, payload := .pursueVerification }]
    else []
  [engagementRec] ++ contentRecs ++ growthRecs ++ credibilityRecs

/-- Landscape summary block. -/
structure LSummary where
  totalCreators : ℕ
  totalFollowers : ℤ
  totalLikes : ℤ
  avgFollowers : ℤ
  avgEngagement : ℚ
deriving DecidableEq, Repr, Inhabited

/-- Entry of the byFollowers ranking view. -/
structure FollowerRankEntry where
  username : String
  followers : ℤ
  rank : ℕ
deriving DecidableEq, Repr

/-- Entry of the byEngagement ranking view. -/
structure EngagementRankEntry where
  username : String
  engagementRate : ℚ
  rank : ℕ
deriving DecidableEq, Repr

/-- Entry of the byGrowth ranking view. -/
structure GrowthRankEntry where
  username : String
  growthPerMonth : ℤ
  rank : ℕ
deriving DecidableEq, Repr

/-- The three independently sorted ranking views. -/
structure Rankings where
  byFollowers : List FollowerRankEntry
  byEngagement : List EngagementRankEntry
  byGrowth : List GrowthRankEntry
deriving DecidableEq, Repr

/-- The marketLeader highlight. -/
structure MarketLeaderHighlight where
  username : String
  followers : ℤ
  marketShare : ℚ
deriving DecidableEq, Repr

/-- The challenger highlight. -/
structure ChallengerHighlight where
  username : String
  followers : ℤ
  gap : ℤ
deriving DecidableEq, Repr

/-- The fastestGrowing highlight. -/
structure FastestGrowingHighlight where
  username : String
  growthPerMonth : ℤ
deriving DecidableEq, Repr

/-- The highestEngagement highlight. -/
structure HighestEngagementHighlight where
  username : String
  engagementRate : ℚ
deriving DecidableEq, Repr

/-- The highlights block. -/
structure Highlights where
  marketLeader : MarketLeaderHighlight
  challenger : ChallengerHighlight
  fastestGrowing : FastestGrowingHighlight
  highestEngagement : HighestEngagementHighlight
deriving DecidableEq, Repr

/-- Result of a successful landscape analysis. -/
structure LandscapeResult where
  summary : LSummary
  rankings : Rankings
  highlights : Highlights
  competitors : List CompetitorAnalysis
  insights : List Insight
deriving DecidableEq, Repr

/-- Body of analyzeCompetitiveLandscape once the two-creator guard has
passed.  The guard guarantees at least two ranked entries, so the headD
and getElem-with-default reads of leader and challenger never fall back
to the default. -/
def mkLandscape (creators : List CreatorProfile) : LandscapeResult :=
  let totalFollowers := totalFollowersOf creators
  let totalLikes := totalLikesOf creators
  let analyses := derivedAnalyses creators
  let ranked := rankAssign (sortDescBy followersKey analyses)
  let leader := ranked.headD default
  let challenger? := ranked[1]?
  let byGrowthSorted := sortDescBy growthKey ranked
  let byEngagementSorted := sortDescBy engagementKey ranked
  let fastestGrowing := byGrowthSorted.headD default
  let highestEngagement := byEngagementSorted.headD default
  { summary := {
      totalCreators := creators.length
      totalFollowers := totalFollowers
      totalLikes := totalLikes
      avgFollowers := jsRound ((totalFollowers : ℚ) / (creators.length : ℚ))
      avgEngagement :=
        (jsRound ((ranked.map (fun c => c.metrics.engagementRate)).sum /
          (creators.length : ℚ) * 100) : ℚ) / 100 }
    rankings := {
      byFollowers := ranked.map (fun c =>
        { username := c.username, followers := c.metrics.followers, rank := c.rank })
      byEngagement := byEngagementSorted.enum.map (fun p =>
        { username := p.2.username, engagementRate := p.2.metrics.engagementRate
          rank := p.1 + 1 })
      byGrowth := byGrowthSorted.enum.map (fun p =>
        { username := p.2.username, growthPerMonth := p.2.growth.followersPerMonth
          rank := p.1 + 1 }) }
    highlights := {
      marketLeader := {
        username := leader.username
        followers := leader.metrics.followers
        marketShare := leader.marketShare.followers }
      challenger := {
        username := (challenger?.getD default).username
        followers := (challenger?.getD default).metrics.followers
        gap := leader.metrics.followers - (challenger?.getD default).metrics.followers }
      fastestGrowing := {
        username := fastestGrowing.username
        growthPerMonth := fastestGrowing.growth.followersPerMonth }
      highestEngagement := {
        username := highestEngagement.username
        engagementRate := highestEngagement.metrics.engagementRate } }
    competitors := ranked
    insights := generateInsights ranked leader challenger? fastestGrowing highestEngagement }

/-- analyzeCompetitiveLandscape on a list of defined creator records:
an error result object for fewer than two creators, else the analysis. -/
def analyzeCompetitiveLandscape (creators : List CreatorProfile) :
    Except String LandscapeResult :=
  if creators.length < 2 then .error needTwoMsg
  else .ok (mkLandscape creators)

/-- Collapses a list of possibly-undefined records, or reports the first
undefined one. -/
def allSome {α : Type} : List (Option α) → Option (List α)
  | [] => some []
  | none :: _ => none
  | some a :: rest => (allSome rest).map (fun l => a :: l)

/-- analyzeCompetitiveLandscape as invoked on a JS array that can contain
undefined entries.  The length guard runs first; the totals reduce then
dereferences .followers of every element, so an undefined entry raises a
TypeError there before anything else happens. -/
def analyzeCompetitiveLandscapeJs (creators : List (Option CreatorProfile)) :
    Except JsError (Except String LandscapeResult) :=
  if creators.length < 2 then .ok (.error needTwoMsg)
  else
    match allSome creators with
    | none => .error (.typeError undefinedCreatorMsg)
    | some cs => .ok (analyzeCompetitiveLandscape cs)

/-- Math.round(((leaderF - targetF) / leaderF) * 100): the unguarded JS
division, non-finite when the leader has zero followers. -/
def gapPercentage (leaderFollowers targetFollowers : ℤ) : JsNum :=
  if leaderFollowers = 0 then
    if targetFollowers < 0 then .posInf
    else if 0 < targetFollowers then .negInf
    else .nan
  else
    .num (jsRound (((leaderFollowers - targetFollowers : ℤ) : ℚ) /
      (leaderFollowers : ℚ) * 100))

/-- Per-dimension benchmark block. -/
structure Benchmark where
  rank : ℤ
  percentile : ℤ
  total : ℕ
  label : String
deriving DecidableEq, Repr, Inhabited

/-- The gap-to-leader block (absent when the target is the leader). -/
structure GapToLeader where
  followers : ℤ
  percentage : JsNum
deriving DecidableEq, Repr, Inhabited

/-- Result of a successful benchmarkCreator call.  The JS result spreads
targetAnalysis after the username, so its target field is exactly the
target analysis record. -/
structure BenchmarkResult where
  target : CompetitorAnalysis
  followersBenchmark : Benchmark
  engagementBenchmark : Benchmark
  growthBenchmark : Benchmark
  gapToLeader : Option GapToLeader
  isLeader : Bool
  competitorCount : ℕ
  landscape : LSummary
  recommendations : List Recommendation
deriving DecidableEq, Repr, Inhabited

/-- Success path of benchmarkCreator, entered once the landscape analysis
succeeded and the target analysis was found.  All username comparisons use
JS strict equality, which is case-sensitive. -/
def buildBenchmark (target : CreatorProfile) (competitors : List CreatorProfile)
    (landscape : LandscapeResult) (targetAnalysis : CompetitorAnalysis) :
    BenchmarkResult :=
  let allCreatorsLength : ℕ := competitors.length + 1
  let competitorAnalyses := landscape.competitors.filter
    (fun c => c.username != target.username)
  let followerRank : ℤ := (targetAnalysis.rank : ℤ)
  let followerPercentile :=
    jsRound ((1 - ((followerRank : ℚ) - 1) / (allCreatorsLength : ℚ)) * 100)
  let engagementRanks := sortDescBy engagementKey landscape.competitors
  let engagementRank : ℤ :=
    jsFindIndex (fun c => c.username == target.username) engagementRanks + 1
  let engagementPercentile :=
    jsRound ((1 - ((engagementRank : ℚ) - 1) / (allCreatorsLength : ℚ)) * 100)
  let growthRanks := sortDescBy growthKey landscape.competitors
  let growthRank : ℤ :=
    jsFindIndex (fun c => c.username == target.username) growthRanks + 1
  let growthPercentile :=
    jsRound ((1 - ((growthRank : ℚ) - 1) / (allCreatorsLength : ℚ)) * 100)
  let leader := landscape.competitors.headD default
  { target := targetAnalysis
    followersBenchmark := {
      rank := followerRank
      percentile := followerPercentile
      total := allCreatorsLength
      label := getPercentileLabel followerPercentile }
    engagementBenchmark := {
      rank := engagementRank
      percentile := engagementPercentile
      total := allCreatorsLength
      label := getPercentileLabel engagementPercentile }
    growthBenchmark := {
      rank := growthRank
      percentile := growthPercentile
      total := allCreatorsLength
      label := getPercentileLabel growthPercentile }
    gapToLeader :=
      if leader.username == target.username then none
      else some {
        followers := leader.metrics.followers - targetAnalysis.metrics.followers
        percentage := gapPercentage leader.metrics.followers
          targetAnalysis.metrics.followers }
    isLeader := leader.username == target.username
    competitorCount := competitors.length
    landscape := landscape.summary
    recommendations :=
      generateBenchmarkRecommendations targetAnalysis competitorAnalyses leader }

/-- benchmarkCreator: runs the landscape analyzer over [target,
...competitors] and benchmarks the target inside it.  There is no explicit
input validation: with an empty competitor list the landscape call returns
its error result object, whose undefined competitors field is then
dereferenced (a TypeError); with an undefined target the totals reduce
inside the landscape analyzer dereferences it (also a TypeError).  The
inner none branch for the target is unreachable: whenever the landscape
analysis succeeds every element of the input array was defined. -/
def benchmarkCreator (target? : Option CreatorProfile)
    (competitors : List CreatorProfile) : Except JsError BenchmarkResult :=
  let allCreators : List (Option CreatorProfile) := target? :: competitors.map some
  match analyzeCompetitiveLandscapeJs allCreators with
  | .error e => .error e
  | .ok (.error _msg) => .error (.typeError undefinedFindMsg)
  | .ok (.ok landscape) =>
    match target? with
    | none => .error (.typeError undefinedRankMsg)
    | some target =>
      match landscape.competitors.find? (fun c => c.username == target.username) with
      | none => .error (.typeError undefinedRankMsg)
      | some targetAnalysis => .ok (buildBenchmark target competitors landscape targetAnalysis)

/-- Competitors list of a landscape run, empty when the run errors; used
only to phrase theorem statements. -/
def landscapeCompetitors (creators : List CreatorProfile) : List CompetitorAnalysis :=
  match analyzeCompetitiveLandscape creators with
  | .ok ls => ls.competitors
  | .error _ => []

/-- Leader (first ranked competitor) of a landscape run; used only to
phrase theorem statements. -/
def landscapeLeader (creators : List CreatorProfile) : CompetitorAnalysis :=
  (landscapeCompetitors creators).headD default

/-- Forgets the assigned rank, restoring the pre-ranking record. -/
def eraseRank (c : CompetitorAnalysis) : CompetitorAnalysis := { c with rank := 0 }

/-- Benchmark result at a concrete input, defaulted on failure; used only
to phrase witness statements. -/
def benchResultD (target : CreatorProfile) (competitors : List CreatorProfile) :
    BenchmarkResult :=
  ((benchmarkCreator (some target) competitors).toOption).getD default

theorem insertDescBy_perm {α : Type} (key : α → ℚ) (a : α) (l : List α) :
    (insertDescBy key a l).Perm (a :: l) := by
  induction l with
  | nil => simp [insertDescBy]
  | cons b bs ih =>
    by_cases h : key b > key a
    · simpa [insertDescBy, h] using ((ih.cons b).trans (List.Perm.swap a b bs))
    · simp [insertDescBy, h]

theorem sortDescBy_perm {α : Type} (key : α → ℚ) (l : List α) :
    (sortDescBy key l).Perm l := by
  induction l with
  | nil => simp [sortDescBy]
  | cons a as ih =>
    exact (insertDescBy_perm key a (sortDescBy key as)).trans (ih.cons a)

theorem mem_sortDescBy {α : Type} {key : α → ℚ} {l : List α} {a : α} :
    a ∈ sortDescBy key l ↔ a ∈ l :=
  (sortDescBy_perm key l).mem_iff

theorem length_sortDescBy {α : Type} (key : α → ℚ) (l : List α) :
    (sortDescBy key l).length = l.length :=
  (sortDescBy_perm key l).length_eq

theorem pairwise_insertDescBy {α : Type} {key : α → ℚ} {a : α} {l : List α}
    (h : l.Pairwise (fun x y => key y ≤ key x)) :
    (insertDescBy key a l).Pairwise (fun x y => key y ≤ key x) := by
  induction l with
  | nil => simp [insertDescBy]
  | cons b bs ih =>
    rcases List.pairwise_cons.mp h with ⟨hb, hbs⟩
    by_cases hgt : key b > key a
    · rw [insertDescBy, if_pos hgt]
      refine List.pairwise_cons.mpr ⟨?_, ih hbs⟩
      intro x hx
      rcases List.mem_cons.mp ((insertDescBy_perm key a bs).mem_iff.mp hx) with hxa | hxbs
      · exact hxa ▸ le_of_lt hgt
      · exact hb x hxbs
    · rw [insertDescBy, if_neg hgt]
      refine List.pairwise_cons.mpr ⟨?_, h⟩
      intro x hx
      rcases List.mem_cons.mp hx with hxb | hxbs
      · exact hxb ▸ le_of_not_lt hgt
      · exact le_trans (hb x hxbs) (le_of_not_lt hgt)

theorem pairwise_sortDescBy {α : Type} (key : α → ℚ) (l : List α) :
    (sortDescBy key l).Pairwise (fun x y => key y ≤ key x) := by
  induction l with
  | nil => simp [sortDescBy]
  | cons a as ih => exact pairwise_insertDescBy ih

theorem stable_insertDescBy {α : Type} {key : α → ℚ} {idx : α → ℕ} {a : α}
    {l : List α}
    (hidx : ∀ b ∈ l, idx a < idx b)
    (hsort : l.Pairwise (fun x y => key y ≤ key x))
    (hstab : l.Pairwise (fun x y => key x = key y → idx x < idx y)) :
    (insertDescBy key a l).Pairwise (fun x y => key x = key y → idx x < idx y) := by
  induction l with
  | nil => simp [insertDescBy]
  | cons b bs ih =>
    rcases List.pairwise_cons.mp hsort with ⟨hsb, hsbs⟩
    rcases List.pairwise_cons.mp hstab with ⟨htb, htbs⟩
    by_cases hgt : key b > key a
    · rw [insertDescBy, if_pos hgt]
      refine List.pairwise_cons.mpr ⟨?_, ih (fun x hx => hidx x (.tail b hx)) hsbs htbs⟩
      intro x hx
      rcases List.mem_cons.mp ((insertDescBy_perm key a bs).mem_iff.mp hx) with hxa | hxbs
      · intro hk; exact absurd (hxa ▸ hk) (ne_of_gt hgt)
      · exact htb x hxbs
    · rw [insertDescBy, if_neg hgt]
      refine List.pairwise_cons.mpr ⟨?_, hstab⟩
      intro x hx _
      exact hidx x hx

theorem fst_le_of_mem_enumFrom {α : Type} :
    ∀ {n : ℕ} {l : List α} {q : ℕ × α}, q ∈ l.enumFrom n → n ≤ q.1 := by
  intro n l
  induction l generalizing n with
  | nil => intro q hq; simp [List.enumFrom] at hq
  | cons a as ih =>
    intro q hq
    rcases List.mem_cons.mp hq with h | h
    · simp [h]
    · exact le_trans (Nat.le_succ n) (ih h)

theorem stable_sortDescBy_enumFrom {α : Type} (key : α → ℚ) :
    ∀ (n : ℕ) (l : List α),
    (sortDescBy (fun p => key p.2) (l.enumFrom n)).Pairwise
      (fun p q => key p.2 = key q.2 → p.1 < q.1) := by
  intro n l
  induction l generalizing n with
  | nil => simp [sortDescBy]
  | cons a as ih =>
    rw [List.enumFrom_cons, sortDescBy]
    refine stable_insertDescBy ?_ (pairwise_sortDescBy _ _) (ih (n + 1))
    intro q hq
    have hq2 : q ∈ as.enumFrom (n + 1) :=
      (sortDescBy_perm (fun p => key p.2) (as.enumFrom (n + 1))).mem_iff.mp hq
    have := fst_le_of_mem_enumFrom hq2
    omega

theorem stable_sortDescBy_enum {α : Type} (key : α → ℚ) (l : List α) :
    (sortDescBy (fun p => key p.2) l.enum).Pairwise
      (fun p q => key p.2 = key q.2 → p.1 < q.1) :=
  stable_sortDescBy_enumFrom key 0 l

theorem map_snd_insertDescBy {α β : Type} (key : α → ℚ) (p : β × α)
    (l : List (β × α)) :
    (insertDescBy (fun q => key q.2) p l).map Prod.snd =
      insertDescBy key p.2 (l.map Prod.snd) := by
  induction l with
  | nil => simp [insertDescBy]
  | cons b bs ih =>
    by_cases h : key b.2 > key p.2
    · simp [insertDescBy, h, ih]
    · simp [insertDescBy, h]

theorem map_snd_sortDescBy {α β : Type} (key : α → ℚ) (l : List (β × α)) :
    (sortDescBy (fun q => key q.2) l).map Prod.snd =
      sortDescBy key (l.map Prod.snd) := by
  induction l with
  | nil => simp [sortDescBy]
  | cons a as ih =>
    rw [List.map_cons, sortDescBy, sortDescBy, map_snd_insertDescBy, ih]

theorem fst_lt_of_mem_enumFrom {α : Type} :
    ∀ {n : ℕ} {l : List α} {q : ℕ × α}, q ∈ l.enumFrom n → q.1 < n + l.length := by
  intro n l
  induction l generalizing n with
  | nil => intro q hq; simp [List.enumFrom] at hq
  | cons a as ih =>
    intro q hq
    rcases List.mem_cons.mp hq with h | h
    · simp [h]
    · have := ih h
      simp only [List.length_cons]
      omega

theorem length_rankAssign (l : List CompetitorAnalysis) :
    (rankAssign l).length = l.length := by
  simp [rankAssign]

theorem map_enumFrom_fst_succ {α : Type} :
    ∀ (n : ℕ) (l : List α),
    (l.enumFrom n).map (fun p => p.1 + 1) = List.range' (n + 1) l.length := by
  intro n l
  induction l generalizing n with
  | nil => simp
  | cons a as ih =>
    rw [List.enumFrom_cons, List.map_cons, List.length_cons, List.range'_succ, ih]

theorem map_rank_rankAssign (l : List CompetitorAnalysis) :
    (rankAssign l).map (fun c => c.rank) = List.range' 1 l.length := by
  rw [rankAssign, List.map_map]
  have : ((fun c => c.rank) ∘ fun p : ℕ × CompetitorAnalysis =>
      { p.2 with rank := p.1 + 1 }) = fun p : ℕ × CompetitorAnalysis => p.1 + 1 := rfl
  rw [this, show l.enum = l.enumFrom 0 from rfl, map_enumFrom_fst_succ]

theorem rank_bounds_of_mem_rankAssign {l : List CompetitorAnalysis}
    {c : CompetitorAnalysis} (h : c ∈ rankAssign l) :
    1 ≤ c.rank ∧ c.rank ≤ l.length := by
  rcases List.mem_map.mp h with ⟨p, hp, hpc⟩
  have := fst_lt_of_mem_enumFrom (n := 0) hp
  have hrank : c.rank = p.1 + 1 := by rw [← hpc]
  omega

theorem map_comp_rankAssign {β : Type} (g : CompetitorAnalysis → β)
    (hg : ∀ (c : CompetitorAnalysis) (n : ℕ), g { c with rank := n } = g c)
    (l : List CompetitorAnalysis) : (rankAssign l).map g = l.map g := by
  rw [rankAssign, List.map_map]
  have : (g ∘ fun p : ℕ × CompetitorAnalysis => { p.2 with rank := p.1 + 1 }) =
      (g ∘ Prod.snd) := by
    funext p
    exact hg p.2 (p.1 + 1)
  rw [this, ← List.map_map, List.enum_map_snd]

theorem eraseRank_eq_self {c : CompetitorAnalysis} (h : c.rank = 0) : eraseRank c = c := by
  cases c
  simp_all [eraseRank]

theorem username_analyzeOne (tf tl : ℤ) (c : CreatorProfile) :
    (analyzeOne tf tl c).username = c.username := rfl

theorem rank_analyzeOne (tf tl : ℤ) (c : CreatorProfile) :
    (analyzeOne tf tl c).rank = 0 := rfl

theorem competitors_mkLandscape (creators : List CreatorProfile) :
    (mkLandscape creators).competitors =
      rankAssign (sortDescBy followersKey (derivedAnalyses creators)) := rfl

theorem length_derivedAnalyses (creators : List CreatorProfile) :
    (derivedAnalyses creators).length = creators.length := by
  simp [derivedAnalyses]

theorem length_competitors_mkLandscape (creators : List CreatorProfile) :
    (mkLandscape creators).competitors.length = creators.length := by
  rw [competitors_mkLandscape, length_rankAssign, length_sortDescBy,
    length_derivedAnalyses]

theorem map_username_competitors_perm (creators : List CreatorProfile) :
    ((mkLandscape creators).competitors.map (fun c => c.username)).Perm
      (creators.map (fun c => c.username)) := by
  rw [competitors_mkLandscape,
    map_comp_rankAssign (fun c => c.username) (fun c n => rfl)]
  have h1 := (sortDescBy_perm followersKey (derivedAnalyses creators)).map
    (fun c => c.username)
  refine h1.trans ?_
  rw [derivedAnalyses, List.map_map]
  exact List.Perm.refl _

theorem exists_username_competitors {creators : List CreatorProfile}
    {c : CreatorProfile} (hc : c ∈ creators) :
    ∃ a ∈ (mkLandscape creators).competitors, a.username = c.username := by
  have h1 : c.username ∈ creators.map (fun c => c.username) :=
    List.mem_map.mpr ⟨c, hc, rfl⟩
  have h2 : c.username ∈ (mkLandscape creators).competitors.map (fun c => c.username) :=
    (map_username_competitors_perm creators).mem_iff.mpr h1
  rcases List.mem_map.mp h2 with ⟨a, ha, hau⟩
  exact ⟨a, ha, hau⟩

theorem analyzeCompetitiveLandscape_ok {creators : List CreatorProfile}
    {ls : LandscapeResult} (h : analyzeCompetitiveLandscape creators = .ok ls) :
    2 ≤ creators.length ∧ ls = mkLandscape creators := by
  unfold analyzeCompetitiveLandscape at h
  by_cases hlen : creators.length < 2
  · rw [if_pos hlen] at h
    exact absurd h (by simp)
  · rw [if_neg hlen] at h
    injection h with h
    exact ⟨by omega, h.symm⟩

theorem allSome_map_some {α : Type} (l : List α) : allSome (l.map some) = some l := by
  induction l with
  | nil => rfl
  | cons a as ih => simp [allSome, ih]

theorem analyzeJs_map_some (cs : List CreatorProfile) :
    analyzeCompetitiveLandscapeJs (cs.map some) =
      .ok (analyzeCompetitiveLandscape cs) := by
  unfold analyzeCompetitiveLandscapeJs analyzeCompetitiveLandscape
  by_cases h : cs.length < 2
  · simp [h]
  · simp [h, allSome_map_some]

theorem benchmarkCreator_ok_elim {t : CreatorProfile} {cs : List CreatorProfile}
    {r : BenchmarkResult} (h : benchmarkCreator (some t) cs = .ok r) :
    ∃ ls ta, analyzeCompetitiveLandscape (t :: cs) = .ok ls ∧
      ls.competitors.find? (fun c => c.username == t.username) = some ta ∧
      r = buildBenchmark t cs ls ta := by
  unfold benchmarkCreator at h
  simp only [] at h
  rw [show (some t :: List.map some cs) = List.map some (t :: cs) from rfl,
    analyzeJs_map_some] at h
  cases hls : analyzeCompetitiveLandscape (t :: cs) with
  | error m => rw [hls] at h; exact absurd h (by simp)
  | ok ls =>
    rw [hls] at h
    dsimp only at h
    cases hf : ls.competitors.find? (fun c => c.username == t.username) with
    | none => rw [hf] at h; exact absurd h (by simp)
    | some ta =>
      rw [hf] at h
      injection h with h
      exact ⟨ls, ta, rfl, hf, h.symm⟩

theorem jsRound_nonneg {x : ℚ} (h : 0 ≤ x) : 0 ≤ jsRound x :=
  Int.le_floor.mpr (by push_cast; linarith)

theorem jsRound_le_100 {x : ℚ} (h : x ≤ 100) : jsRound x ≤ 100 := by
  have h2 : ⌊x + 1/2⌋ ≤ ⌊(201/2 : ℚ)⌋ := Int.floor_le_floor (by linarith)
  have h3 : ⌊(201/2 : ℚ)⌋ = 100 := by norm_num
  rw [jsRound]
  omega

theorem jsRound_intCast (n : ℤ) : jsRound (n : ℚ) = n := by
  rw [jsRound, Int.floor_int_add, show ⌊(1/2 : ℚ)⌋ = 0 by norm_num]
  omega

theorem findIdx?_bounds {α : Type} {p : α → Bool} :
    ∀ {l : List α} {i : ℕ}, (∃ x ∈ l, p x) →
      ∃ j, List.findIdx? p l i = some j ∧ i ≤ j ∧ j < i + l.length := by
  intro l
  induction l with
  | nil => intro i h; simp at h
  | cons a as ih =>
    intro i h
    by_cases hpa : p a
    · exact ⟨i, by rw [List.findIdx?_cons, if_pos hpa], le_refl i, by simp⟩
    · have hex : ∃ x ∈ as, p x := by
        rcases h with ⟨x, hx, hpx⟩
        rcases List.mem_cons.mp hx with hxa | hxas
        · exact absurd (hxa ▸ hpx) (by simpa using hpa)
        · exact ⟨x, hxas, hpx⟩
      rcases ih (i := i + 1) hex with ⟨j, hj, hij, hjl⟩
      refine ⟨j, ?_, by omega, by simp only [List.length_cons]; omega⟩
      rw [List.findIdx?_cons, if_neg hpa]
      exact hj

theorem jsFindIndex_bounds {α : Type} {p : α → Bool} {l : List α}
    (h : ∃ x ∈ l, p x) :
    0 ≤ jsFindIndex p l ∧ jsFindIndex p l < l.length := by
  rcases findIdx?_bounds (i := 0) h with ⟨j, hj, _, hjl⟩
  rw [jsFindIndex, hj]
  dsimp only
  constructor
  · exact_mod_cast Nat.zero_le j
  · exact_mod_cast (by omega : j < l.length)

theorem percentile_formula_bounds {r N : ℚ} (h1 : 1 ≤ r) (h2 : r ≤ N) :
    0 ≤ jsRound ((1 - (r - 1) / N) * 100) ∧
      jsRound ((1 - (r - 1) / N) * 100) ≤ 100 := by
  have hN : (0 : ℚ) < N := lt_of_lt_of_le zero_lt_one (h1.trans h2)
  have hfrac0 : (0 : ℚ) ≤ (r - 1) / N := div_nonneg (by linarith) hN.le
  have hfrac1 : (r - 1) / N ≤ 1 := by
    rw [div_le_one hN]; linarith
  exact ⟨jsRound_nonneg (by nlinarith), jsRound_le_100 (by nlinarith)⟩

theorem percentile_formula_rank_one (N : ℚ) :
    jsRound ((1 - ((1 : ℚ) - 1) / N) * 100) = 100 := by
  have h : (1 - ((1 : ℚ) - 1) / N) * 100 = ((100 : ℤ) : ℚ) := by norm_num
  calc jsRound ((1 - ((1 : ℚ) - 1) / N) * 100)
      = jsRound ((100 : ℤ) : ℚ) := by rw [h]
    _ = 100 := jsRound_intCast 100

theorem percentile_formula_rank_last {N : ℚ} (hN : N ≠ 0) :
    jsRound ((1 - (N - 1) / N) * 100) = jsRound (100 / N) := by
  have h : (1 - (N - 1) / N) * 100 = 100 / N := by
    field_simp
  rw [h]

theorem percentile_block {rank : ℤ} {N : ℕ} (h1 : 1 ≤ rank) (h2 : rank ≤ (N : ℤ)) :
    0 ≤ jsRound ((1 - ((rank : ℚ) - 1) / (N : ℚ)) * 100) ∧
    jsRound ((1 - ((rank : ℚ) - 1) / (N : ℚ)) * 100) ≤ 100 ∧
    (rank = 1 → jsRound ((1 - ((rank : ℚ) - 1) / (N : ℚ)) * 100) = 100) ∧
    (rank = (N : ℤ) → jsRound ((1 - ((rank : ℚ) - 1) / (N : ℚ)) * 100) =
      jsRound (100 / (N : ℚ))) := by
  have h1q : (1 : ℚ) ≤ (rank : ℚ) := by exact_mod_cast h1
  have h2q : (rank : ℚ) ≤ (N : ℚ) := by exact_mod_cast h2
  refine ⟨(percentile_formula_bounds h1q h2q).1,
    (percentile_formula_bounds h1q h2q).2, ?_, ?_⟩
  · rintro rfl
    simpa using percentile_formula_rank_one (N : ℚ)
  · rintro rfl
    have hN0 : (N : ℚ) ≠ 0 := by
      have : (1 : ℤ) ≤ (N : ℤ) := le_trans h1 h2
      have : 1 ≤ N := by exact_mod_cast this
      positivity
    simpa using percentile_formula_rank_last hN0

/-- C10: for every percentile value p, getPercentileLabel assigns exactly one
label by fixed top-down thresholds: p ≥ 90 gives Top 10 percent, p ≥ 75 gives
Top 25 percent, p ≥ 50 gives Above Average, p ≥ 25 gives Below Average, and
otherwise Bottom 25 percent. -/
theorem C10_percentile_label (p : ℤ) :
    (getPercentileLabel p = "Top 10%" ↔ 90 ≤ p) ∧
    (getPercentileLabel p = "Top 25%" ↔ 75 ≤ p ∧ p < 90) ∧
    (getPercentileLabel p = "Above Average" ↔ 50 ≤ p ∧ p < 75) ∧
    (getPercentileLabel p = "Below Average" ↔ 25 ≤ p ∧ p < 50) ∧
    (getPercentileLabel p = "Bottom 25%" ↔ p < 25) := by
  unfold getPercentileLabel
  split_ifs with h1 h2 h3 h4 <;> refine ⟨?_, ?_, ?_, ?_, ?_⟩ <;> simp <;> try omega

/-- C10 witness: the label theorem applied at the concrete percentiles 90
and 24. -/
theorem C10_percentile_label_witness :
    getPercentileLabel 90 = "Top 10%" ∧ getPercentileLabel 24 = "Bottom 25%" :=
  ⟨(C10_percentile_label 90).1.mpr (by norm_num),
   (C10_percentile_label 24).2.2.2.2.mpr (by norm_num)⟩

/-- Concrete profile with 100000 followers, used as benchmark target. -/
def profX : CreatorProfile := { username := "x", followers := some 100000 }

/-- C1 counterexample: benchmarkCreator with a present target and an empty
competitor list does fail, but with a runtime TypeError (dereferencing the
undefined competitors field of the landscape error result), not with any
explicitly thrown InvalidInput condition: the function contains no input
validation at all. -/
theorem C1_counterexample :
    benchmarkCreator (some profX) [] = .error (.typeError undefinedFindMsg) ∧
    (JsError.typeError undefinedFindMsg).isExplicitThrow = false :=
  ⟨rfl, rfl⟩

/-- C1 (amended): whenever the target is absent or the competitor list is
empty, benchmarkCreator fails with a runtime TypeError instead of returning
a BenchmarkResult; it never silently proceeds, but the failure is an
accidental crash, not an explicit InvalidInput validation. -/
theorem C1_fails_on_missing_input (target? : Option CreatorProfile)
    (cs : List CreatorProfile) (h : target? = none ∨ cs = []) :
    ∃ msg, benchmarkCreator target? cs = .error (.typeError msg) := by
  rcases h with h | h
  · subst h
    cases cs with
    | nil => exact ⟨undefinedFindMsg, rfl⟩
    | cons c cs2 =>
      refine ⟨undefinedCreatorMsg, ?_⟩
      have hjs : analyzeCompetitiveLandscapeJs (none :: (c :: cs2).map some) =
          .error (.typeError undefinedCreatorMsg) := by
        unfold analyzeCompetitiveLandscapeJs
        rw [if_neg (by simp only [List.map_cons, List.length_cons, List.length_map]; omega)]
        rfl
      unfold benchmarkCreator
      simp only []
      rw [hjs]
  · subst h
    cases target? with
    | none => exact ⟨undefinedFindMsg, rfl⟩
    | some t => exact ⟨undefinedFindMsg, rfl⟩

/-- C1 witness: the amended failure theorem at a present target with an
empty competitor list. -/
theorem C1_fails_on_missing_input_witness :
    ∃ msg, benchmarkCreator (some profX) [] = .error (.typeError msg) :=
  C1_fails_on_missing_input (some profX) [] (Or.inr rfl)

/-- Target profile whose username differs from a competitor only by case. -/
def profUpperX : CreatorProfile := { username := "X", followers := some 100 }

/-- Competitor equal to the target username up to case, with more followers. -/
def profLowerX : CreatorProfile := { username := "x", followers := some 200 }

/-- C2 counterexample: with target username X and leader username x (equal
case-insensitively) the code reports isLeader = false and a non-null
gapToLeader, because every username comparison uses strict, case-sensitive
equality. -/
theorem C2_counterexample :
    (benchmarkCreator (some profUpperX) [profLowerX]).map
      (fun r => (r.isLeader, r.gapToLeader.isSome)) = .ok (false, true) ∧
    profUpperX.username.toLower = profLowerX.username.toLower := by
  constructor
  · with_unfolding_all rfl
  · with_unfolding_all rfl

/-- C2 (amended): gapToLeader is null exactly when isLeader is true, which
holds exactly when the leader username equals the target username under
case-sensitive comparison; the target analysis is likewise located by
case-sensitive exact username match. -/
theorem C2_gap_iff_leader_case_sensitive (target : CreatorProfile)
    (cs : List CreatorProfile) (r : BenchmarkResult)
    (h : benchmarkCreator (some target) cs = .ok r) :
    (r.gapToLeader = none ↔ r.isLeader = true) ∧
    (r.isLeader = true ↔
      (landscapeLeader (target :: cs)).username = target.username) ∧
    (landscapeCompetitors (target :: cs)).find?
      (fun c => c.username == target.username) = some r.target := by
  rcases benchmarkCreator_ok_elim h with ⟨ls, ta, hls, hf, hr⟩
  subst hr
  have hlc : landscapeCompetitors (target :: cs) = ls.competitors := by
    rw [landscapeCompetitors, hls]
  have hll : landscapeLeader (target :: cs) = ls.competitors.headD default := by
    rw [landscapeLeader, hlc]
  refine ⟨?_, ?_, ?_⟩
  · simp only [buildBenchmark]
    by_cases hu : (ls.competitors.headD default).username == target.username
    · simp [hu]
    · simp [hu]
  · rw [hll]
    simp only [buildBenchmark]
    exact beq_iff_eq
  · rw [hlc, hf]
    rfl

/-- C2 witness: the amended gap-iff-leader theorem at a concrete run where
the target is not the leader. -/
theorem C2_gap_iff_leader_case_sensitive_witness :
    (benchResultD profUpperX [profLowerX]).gapToLeader = none ↔
      (benchResultD profUpperX [profLowerX]).isLeader = true :=
  (C2_gap_iff_leader_case_sensitive profUpperX [profLowerX]
    (benchResultD profUpperX [profLowerX]) (by with_unfolding_all rfl)).1

/-- Profile with a negative stored account age (flagged by validation but
used as-is by the analysis). -/
def profNegAge : CreatorProfile :=
  { username := "neg", followers := some 365, accountAgeDays := some (-1) }

/-- Second profile so that the landscape guard passes. -/
def profOther : CreatorProfile := { username := "other", followers := some 10 }

/-- C6 counterexample: for accountAgeDays = -1 (which is ≤ 0) the growth
computation divides by -1 rather than by the default 365: the JS falsy test
behind the default only catches an absent or zero age, so followersPerDay
is -365 where the claim would require round(365/365) = 1. -/
theorem C6_counterexample :
    ((landscapeCompetitors [profNegAge, profOther]).find?
      (fun c => c.username == "neg")).map (fun c => c.growth.followersPerDay) =
        some (-365) ∧
    profNegAge.accountAgeDays = some (-1) ∧
    jsRound ((365 : ℚ) / 365) = 1 := by
  refine ⟨?_, rfl, ?_⟩
  · with_unfolding_all rfl
  · with_unfolding_all rfl

/-- C6 (amended): when accountAgeDays is absent or exactly 0, the growth
computation uses 365, and followersPerDay = round(followers/365); the
effective age is never 0, so no division by zero occurs, but a negative
stored age is used as-is. -/
theorem C6_default_age (tf tl : ℤ) (c : CreatorProfile) :
    ((c.accountAgeDays = none ∨ c.accountAgeDays = some 0) →
      (analyzeOne tf tl c).metrics.accountAgeDays = 365 ∧
      (analyzeOne tf tl c).growth.followersPerDay =
        jsRound ((jsOr c.followers 0 : ℚ) / 365)) ∧
    (analyzeOne tf tl c).metrics.accountAgeDays ≠ 0 := by
  constructor
  · rintro (h | h) <;> simp [analyzeOne, jsOr, h]
  · have hne : jsOr c.accountAgeDays 365 ≠ 0 := by
      unfold jsOr
      cases c.accountAgeDays with
      | none => simp
      | some a =>
        by_cases ha : a = 0 <;> simp [ha]
    simpa [analyzeOne] using hne

/-- Profile with no stored account age. -/
def profNoAge : CreatorProfile := { username := "w", followers := some 730 }

/-- C6 witness: the amended default-age theorem at a profile with an absent
account age. -/
theorem C6_default_age_witness :
    (analyzeOne 0 0 profNoAge).metrics.accountAgeDays = 365 ∧
    (analyzeOne 0 0 profNoAge).growth.followersPerDay =
      jsRound ((jsOr profNoAge.followers 0 : ℚ) / 365) :=
  (C6_default_age 0 0 profNoAge).1 (Or.inl rfl)

/-- Target with a negative follower count (tolerated anomaly). -/
def profNegFollowers : CreatorProfile := { username := "t", followers := some (-5) }

/-- Competitor with zero followers, which becomes the leader. -/
def profZeroFollowers : CreatorProfile := { username := "zc", followers := some 0 }

/-- C7 counterexample: with a zero-follower leader and a non-leader target
the gap percentage divides by zero and is Infinity, not the claimed 0:
the code contains no guard for leaderFollowers = 0. -/
theorem C7_counterexample :
    (benchmarkCreator (some profNegFollowers) [profZeroFollowers]).map
      (fun r => r.gapToLeader.map (fun g => (g.followers, g.percentage))) =
        .ok (some (5, JsNum.posInf)) ∧
    (landscapeLeader [profNegFollowers, profZeroFollowers]).metrics.followers = 0 ∧
    JsNum.posInf ≠ JsNum.num 0 := by
  refine ⟨?_, ?_, by simp⟩
  · with_unfolding_all rfl
  · with_unfolding_all rfl

/-- C7 (amended): for a non-leader target, gapToLeader.followers equals
leaderFollowers minus targetFollowers, and the percentage is
round(gap / leaderFollowers × 100) whenever leaderFollowers is nonzero;
when leaderFollowers is zero the unguarded division yields a non-finite
value (Infinity or NaN) rather than 0. -/
theorem C7_gap_formula (target : CreatorProfile) (cs : List CreatorProfile)
    (r : BenchmarkResult) (g : GapToLeader)
    (h : benchmarkCreator (some target) cs = .ok r) (hg : r.gapToLeader = some g) :
    g.followers = (landscapeLeader (target :: cs)).metrics.followers -
      r.target.metrics.followers ∧
    ((landscapeLeader (target :: cs)).metrics.followers ≠ 0 →
      g.percentage = .num (jsRound ((g.followers : ℚ) /
        ((landscapeLeader (target :: cs)).metrics.followers : ℚ) * 100))) ∧
    ((landscapeLeader (target :: cs)).metrics.followers = 0 →
      g.percentage = .posInf ∨ g.percentage = .negInf ∨ g.percentage = .nan) := by
  rcases benchmarkCreator_ok_elim h with ⟨ls, ta, hls, hf, hr⟩
  subst hr
  have hll : landscapeLeader (target :: cs) = ls.competitors.headD default := by
    rw [landscapeLeader, landscapeCompetitors, hls]
  rw [hll]
  simp only [buildBenchmark] at hg ⊢
  by_cases hu : (ls.competitors.headD default).username == target.username
  · rw [if_pos hu] at hg
    exact absurd hg (by simp)
  · rw [if_neg hu] at hg
    have hg2 := Option.some.inj hg
    subst hg2
    refine ⟨rfl, ?_, ?_⟩
    · intro hL
      rw [gapPercentage, if_neg hL]
    · intro hL
      rw [gapPercentage, if_pos hL]
      by_cases h1 : ta.metrics.followers < 0
      · rw [if_pos h1]; exact Or.inl rfl
      · rw [if_neg h1]
        by_cases h2 : 0 < ta.metrics.followers
        · rw [if_pos h2]; exact Or.inr (Or.inl rfl)
        · rw [if_neg h2]; exact Or.inr (Or.inr rfl)

/-- C7 witness: the amended gap theorem at a run with a nonzero-follower
leader and a non-leader target. -/
theorem C7_gap_formula_witness :
    ((benchResultD profUpperX [profLowerX]).gapToLeader.getD default).percentage =
      .num (jsRound (((((benchResultD profUpperX [profLowerX]).gapToLeader.getD
        default).followers : ℚ)) /
        ((landscapeLeader (profUpperX :: [profLowerX])).metrics.followers : ℚ) * 100)) :=
  (C7_gap_formula profUpperX [profLowerX] (benchResultD profUpperX [profLowerX])
    ((benchResultD profUpperX [profLowerX]).gapToLeader.getD default)
    (by with_unfolding_all rfl) (by with_unfolding_all rfl)).2.1
    (by rw [show (landscapeLeader (profUpperX :: [profLowerX])).metrics.followers =
      200 from by with_unfolding_all rfl]; norm_num)

theorem mem_if_singleton {α : Type} {x y : α} {c : Prop} [Decidable c] :
    x ∈ (if c then [y] else []) ↔ c ∧ x = y := by
  split_ifs with h <;> simp [h]

theorem if_singleton_sublist {α : Type} {c : Prop} [Decidable c] (y : α) :
    (if c then [y] else []).Sublist [y] := by
  split_ifs <;> simp

theorem dedup_length_one_iff {α : Type} [DecidableEq α] (l : List α) :
    l.dedup.length = 1 ↔ l ≠ [] ∧ ∀ x ∈ l, ∀ y ∈ l, x = y := by
  constructor
  · intro h
    rcases List.length_eq_one.mp h with ⟨a, ha⟩
    constructor
    · intro hnil
      rw [hnil] at ha
      simp at ha
    · intro x hx y hy
      have hxa : x = a := by
        have := List.mem_dedup.mpr hx
        rw [ha] at this
        simpa using this
      have hya : y = a := by
        have := List.mem_dedup.mpr hy
        rw [ha] at this
        simpa using this
      rw [hxa, hya]
  · rintro ⟨hne, hall⟩
    rcases List.exists_mem_of_ne_nil l hne with ⟨a, ha⟩
    have hdd : ∀ x ∈ l.dedup, x = a := fun x hx => hall x (List.mem_dedup.mp hx) a ha
    have hane : a ∈ l.dedup := List.mem_dedup.mpr ha
    have hnd : l.dedup.Nodup := List.nodup_dedup l
    cases hd : l.dedup with
    | nil => rw [hd] at hane; simp at hane
    | cons b bs =>
      cases bs with
      | nil => simp
      | cons c cs =>
        rw [hd] at hdd hnd
        have hb : b = a := hdd b (by simp)
        have hc : c = a := hdd c (by simp)
        rw [List.nodup_cons] at hnd
        exact absurd (by rw [hb, ← hc]; exact List.mem_cons_self c cs) hnd.1

/-- C9: the insight generator emits each of the five insights exactly when
its condition holds (market_dominance: leader follower share above 50;
challenger_rising: challenger exists and outgrows the leader;
engagement_opportunity: highest-engagement creator is not the leader;
growth_outlier: fastest grower exceeds twice the mean growth;
strategy_uniformity: every competitor has the same posting strategy), and
the emitted insights appear in that fixed order. -/
theorem C9_insights (competitors : List CompetitorAnalysis)
    (leader : CompetitorAnalysis) (challenger : Option CompetitorAnalysis)
    (fastestGrowing highestEngagement : CompetitorAnalysis) :
    ((generateInsights competitors leader challenger fastestGrowing
        highestEngagement).map (fun i => i.type)).Sublist
      ["market_dominance", "challenger_rising", "engagement_opportunity",
        "growth_outlier", "strategy_uniformity"] ∧
    ("market_dominance" ∈ (generateInsights competitors leader challenger
        fastestGrowing highestEngagement).map (fun i => i.type) ↔
      leader.marketShare.followers > 50) ∧
    ("challenger_rising" ∈ (generateInsights competitors leader challenger
        fastestGrowing highestEngagement).map (fun i => i.type) ↔
      ∃ ch, challenger = some ch ∧
        ch.growth.followersPerMonth > leader.growth.followersPerMonth) ∧
    ("engagement_opportunity" ∈ (generateInsights competitors leader challenger
        fastestGrowing highestEngagement).map (fun i => i.type) ↔
      highestEngagement.username ≠ leader.username) ∧
    ("growth_outlier" ∈ (generateInsights competitors leader challenger
        fastestGrowing highestEngagement).map (fun i => i.type) ↔
      (fastestGrowing.growth.followersPerMonth : ℚ) > avgGrowthOf competitors * 2) ∧
    ("strategy_uniformity" ∈ (generateInsights competitors leader challenger
        fastestGrowing highestEngagement).map (fun i => i.type) ↔
      (competitors ≠ [] ∧ ∀ c1 ∈ competitors, ∀ c2 ∈ competitors,
        c1.contentStrategy.postingStrategy = c2.contentStrategy.postingStrategy)) := by
  have hmap : (generateInsights competitors leader challenger fastestGrowing
      highestEngagement).map (fun i => i.type) =
      (if leader.marketShare.followers > 50 then ["market_dominance"] else []) ++
      ((match challenger with
        | some ch =>
          if ch.growth.followersPerMonth > leader.growth.followersPerMonth
            then [("challenger_rising" : String)] else []
        | none => []) ++
      ((if highestEngagement.username ≠ leader.username then
          ["engagement_opportunity"] else []) ++
      ((if (fastestGrowing.growth.followersPerMonth : ℚ) > avgGrowthOf competitors * 2
          then ["growth_outlier"] else []) ++
      (if ((competitors.map (fun c => c.contentStrategy.postingStrategy)).dedup).length = 1
          then ["strategy_uniformity"] else [])))) := by
    cases challenger <;>
      simp only [generateInsights, List.map_append, List.append_assoc] <;>
      split_ifs <;> rfl
  have hstrat : ((competitors.map (fun c => c.contentStrategy.postingStrategy)).dedup).length = 1 ↔
      (competitors ≠ [] ∧ ∀ c1 ∈ competitors, ∀ c2 ∈ competitors,
        c1.contentStrategy.postingStrategy = c2.contentStrategy.postingStrategy) := by
    rw [dedup_length_one_iff]
    constructor
    · rintro ⟨h1, h2⟩
      refine ⟨by simpa using h1, ?_⟩
      intro c1 hc1 c2 hc2
      exact h2 _ (List.mem_map_of_mem _ hc1) _ (List.mem_map_of_mem _ hc2)
    · rintro ⟨h1, h2⟩
      refine ⟨by simpa using h1, ?_⟩
      intro x hx y hy
      rcases List.mem_map.mp hx with ⟨c1, hc1, rfl⟩
      rcases List.mem_map.mp hy with ⟨c2, hc2, rfl⟩
      exact h2 c1 hc1 c2 hc2
  rw [hmap]
  refine ⟨?_, ?_, ?_, ?_, ?_, ?_⟩
  · show List.Sublist _ (["market_dominance"] ++ (["challenger_rising"] ++
      (["engagement_opportunity"] ++ (["growth_outlier"] ++ ["strategy_uniformity"]))))
    refine List.Sublist.append (if_singleton_sublist _) ?_
    refine List.Sublist.append ?_ ?_
    · cases challenger with
      | none => exact List.nil_sublist _
      | some ch => exact if_singleton_sublist _
    · exact List.Sublist.append (if_singleton_sublist _)
        (List.Sublist.append (if_singleton_sublist _) (if_singleton_sublist _))
  · cases challenger <;> simp [List.mem_append, mem_if_singleton]
  · cases challenger <;> simp [List.mem_append, mem_if_singleton]
  · cases challenger <;> simp [List.mem_append, mem_if_singleton]
  · cases challenger <;> simp [List.mem_append, mem_if_singleton]
  · rw [← hstrat]
    cases challenger <;> simp [List.mem_append, mem_if_singleton]

theorem growth_filter_eq (target : CompetitorAnalysis)
    (competitors : List CompetitorAnalysis) (leader : CompetitorAnalysis) :
    (generateBenchmarkRecommendations target competitors leader).filter
        (fun r => r.category == "Growth") =
      (if target.username ≠ leader.username then
        (if target.growth.followersPerMonth - leader.growth.followersPerMonth > 100 then
          [{ category := "Growth", priority := .low
             payload := .overtakeLeader (min (jsRound
               (((leader.metrics.followers - target.metrics.followers : ℤ) : ℚ) /
                ((target.growth.followersPerMonth -
                  leader.growth.followersPerMonth : ℤ) : ℚ))) 24) }]
        else
          [{ category := "Growth", priority := .high
             payload := .closeGap ((jsRound
               (((leader.metrics.followers - target.metrics.followers : ℤ) : ℚ) /
                 1000000 * 10) : ℚ) / 10)
               target.growth.followersPerMonth leader.growth.followersPerMonth }])
      else []) := by
  simp only [generateBenchmarkRecommendations]
  split_ifs <;> simp [List.filter]

/-- C8: the Growth recommendation rule is skipped exactly when the target
is the leader (by username); otherwise, with followerGap = leaderFollowers
minus targetFollowers and growthDelta = target growth minus leader growth,
a growthDelta above 100 yields one low-priority overtake recommendation
whose monthsToLeader is round(followerGap/growthDelta) capped at 24, and
any other growthDelta yields one high-priority close-the-gap
recommendation stating the gap in millions. -/
theorem C8_growth_recommendation (target : CompetitorAnalysis)
    (competitors : List CompetitorAnalysis) (leader : CompetitorAnalysis) :
    (target.username = leader.username →
      (generateBenchmarkRecommendations target competitors leader).filter
        (fun r => r.category == "Growth") = []) ∧
    (target.username ≠ leader.username →
      (target.growth.followersPerMonth - leader.growth.followersPerMonth > 100 →
        (generateBenchmarkRecommendations target competitors leader).filter
          (fun r => r.category == "Growth") =
          [{ category := "Growth", priority := .low
             payload := .overtakeLeader (min (jsRound
               (((leader.metrics.followers - target.metrics.followers : ℤ) : ℚ) /
                ((target.growth.followersPerMonth -
                  leader.growth.followersPerMonth : ℤ) : ℚ))) 24) }]) ∧
      (target.growth.followersPerMonth - leader.growth.followersPerMonth ≤ 100 →
        (generateBenchmarkRecommendations target competitors leader).filter
          (fun r => r.category == "Growth") =
          [{ category := "Growth", priority := .high
             payload := .closeGap ((jsRound
               (((leader.metrics.followers - target.metrics.followers : ℤ) : ℚ) /
                 1000000 * 10) : ℚ) / 10)
               target.growth.followersPerMonth leader.growth.followersPerMonth }])) ∧
    (∀ rec ∈ (generateBenchmarkRecommendations target competitors leader).filter
        (fun r => r.category == "Growth"),
      ∀ m, rec.payload = .overtakeLeader m → m ≤ 24) := by
  refine ⟨?_, ?_, ?_⟩
  · intro hu
    rw [growth_filter_eq, if_neg (by simp [hu])]
  · intro hu
    constructor
    · intro hd
      rw [growth_filter_eq, if_pos hu, if_pos hd]
    · intro hd
      rw [growth_filter_eq, if_pos hu, if_neg (by omega)]
  · intro rec hrec m hm
    rw [growth_filter_eq] at hrec
    by_cases hu : target.username ≠ leader.username
    · rw [if_pos hu] at hrec
      by_cases hd : target.growth.followersPerMonth -
          leader.growth.followersPerMonth > 100
      · rw [if_pos hd] at hrec
        rcases List.mem_singleton.mp hrec with rfl
        have := RecPayload.overtakeLeader.inj hm
        rw [← this]
        exact min_le_right _ _
      · rw [if_neg hd] at hrec
        rcases List.mem_singleton.mp hrec with rfl
        exact absurd hm (by simp)
    · rw [if_neg hu] at hrec
      simp at hrec

/-- Concrete target analysis: 1000 followers behind, growing 200 per month
faster than the leader. -/
def caTarget : CompetitorAnalysis :=
  { (default : CompetitorAnalysis) with
    username := "tgt"
    metrics := { (default : Metrics) with followers := 1000 }
    growth := { (default : Growth) with followersPerMonth := 300 } }

/-- Concrete leader analysis for the C8 witness. -/
def caLeader : CompetitorAnalysis :=
  { (default : CompetitorAnalysis) with
    username := "led"
    metrics := { (default : Metrics) with followers := 2000 }
    growth := { (default : Growth) with followersPerMonth := 100 } }

/-- C8 witness: the Growth-rule theorem at concrete analyses where the
delta 200 exceeds the materiality threshold, yielding the single
low-priority overtake recommendation with monthsToLeader 5. -/
theorem C8_growth_recommendation_witness :
    (generateBenchmarkRecommendations caTarget [] caLeader).filter
      (fun r => r.category == "Growth") =
      [{ category := "Growth", priority := .low
         payload := .overtakeLeader (min (jsRound
           (((caLeader.metrics.followers - caTarget.metrics.followers : ℤ) : ℚ) /
            ((caTarget.growth.followersPerMonth -
              caLeader.growth.followersPerMonth : ℤ) : ℚ))) 24) }] :=
  ((C8_growth_recommendation caTarget [] caLeader).2.1
    (by simp [caTarget, caLeader])).1 (by norm_num [caTarget, caLeader])

/-- C4: on every successful landscape run the assigned ranks are exactly
1..N in list order (hence a duplicate-free permutation of 1..N), the ranked
list is a permutation of the derived analyses sorted by followers
descending, and the sort is stable: positions with equal follower counts
keep their original input order (strictly increasing input indices in the
enumerated stable sort that the ranked list equals). -/
theorem C4_rank_permutation (creators : List CreatorProfile) (ls : LandscapeResult)
    (h : analyzeCompetitiveLandscape creators = .ok ls) :
    (ls.competitors.map (fun c => c.rank) = List.range' 1 creators.length) ∧
    ((ls.competitors.map eraseRank).Perm (derivedAnalyses creators)) ∧
    (ls.competitors.Pairwise
      (fun a b => b.metrics.followers ≤ a.metrics.followers)) ∧
    (ls.competitors.map eraseRank =
      (sortDescBy (fun p => followersKey p.2) (derivedAnalyses creators).enum).map
        Prod.snd) ∧
    ((sortDescBy (fun p => followersKey p.2) (derivedAnalyses creators).enum).Pairwise
      (fun p q => p.2.metrics.followers = q.2.metrics.followers → p.1 < q.1)) := by
  rcases analyzeCompetitiveLandscape_ok h with ⟨hlen, hls⟩
  subst hls
  rw [competitors_mkLandscape]
  have hranks0 : ∀ c ∈ sortDescBy followersKey (derivedAnalyses creators),
      c.rank = 0 := by
    intro c hc
    have hc2 : c ∈ derivedAnalyses creators := mem_sortDescBy.mp hc
    rcases List.mem_map.mp hc2 with ⟨p, _, hpc⟩
    rw [← hpc]
    rfl
  have herase : (rankAssign (sortDescBy followersKey (derivedAnalyses creators))).map
      eraseRank = sortDescBy followersKey (derivedAnalyses creators) := by
    rw [map_comp_rankAssign eraseRank (fun c n => rfl)]
    exact (List.map_congr_left (fun c hc => eraseRank_eq_self (hranks0 c hc))).trans
      (List.map_id _)
  refine ⟨?_, ?_, ?_, ?_, ?_⟩
  · rw [map_rank_rankAssign, length_sortDescBy, length_derivedAnalyses]
  · rw [herase]
    exact sortDescBy_perm followersKey (derivedAnalyses creators)
  · have hP : (sortDescBy followersKey (derivedAnalyses creators)).Pairwise
        (fun a b => b.metrics.followers ≤ a.metrics.followers) := by
      refine (pairwise_sortDescBy followersKey (derivedAnalyses creators)).imp ?_
      intro a b hab
      unfold followersKey at hab
      exact_mod_cast hab
    have hP2 : ((sortDescBy followersKey (derivedAnalyses creators)).enum.map
        Prod.snd).Pairwise (fun a b => b.metrics.followers ≤ a.metrics.followers) := by
      rw [List.enum_map_snd]
      exact hP
    rw [rankAssign, List.pairwise_map]
    exact List.pairwise_map.mp hP2
  · rw [herase, map_snd_sortDescBy, List.enum_map_snd]
  · refine (stable_sortDescBy_enum followersKey (derivedAnalyses creators)).imp ?_
    intro p q hpq hint
    exact hpq (by rw [followersKey, followersKey, hint])

/-- C4 witness: the ranking theorem at a concrete two-creator landscape,
giving ranks exactly [1, 2]. -/
theorem C4_rank_permutation_witness :
    (mkLandscape [profUpperX, profLowerX]).competitors.map (fun c => c.rank) =
      List.range' 1 2 :=
  (C4_rank_permutation [profUpperX, profLowerX] (mkLandscape [profUpperX, profLowerX])
    (by with_unfolding_all rfl)).1

theorem jsRound_abs_le (y : ℚ) : |(jsRound y : ℚ) - y| ≤ 1/2 := by
  rw [jsRound]
  have h1 := Int.floor_le (y + 1/2)
  have h2 := Int.lt_floor_add_one (y + 1/2)
  rw [abs_le]
  constructor <;> linarith

theorem share_abs_le (x : ℚ) :
    |(jsRound (x * 10000) : ℚ) / 100 - x * 100| ≤ 1/200 := by
  have h := jsRound_abs_le (x * 10000)
  have heq : (jsRound (x * 10000) : ℚ) / 100 - x * 100 =
      ((jsRound (x * 10000) : ℚ) - x * 10000) / 100 := by ring
  rw [heq, abs_div, abs_of_pos (by norm_num : (0:ℚ) < 100)]
  linarith

theorem sum_map_abs_le {α : Type} (g h : α → ℚ) (ε : ℚ) (l : List α)
    (hle : ∀ x ∈ l, |g x - h x| ≤ ε) :
    |(l.map g).sum - (l.map h).sum| ≤ l.length * ε := by
  induction l with
  | nil => simp
  | cons a as ih =>
    simp only [List.map_cons, List.sum_cons, List.length_cons]
    have h1 := hle a (List.mem_cons_self a as)
    have h2 := ih (fun x hx => hle x (List.mem_cons_of_mem a hx))
    have h3 : |g a + (as.map g).sum - (h a + (as.map h).sum)| ≤
        |g a - h a| + |(as.map g).sum - (as.map h).sum| := by
      have := abs_add (g a - h a) ((as.map g).sum - (as.map h).sum)
      calc |g a + (as.map g).sum - (h a + (as.map h).sum)|
          = |(g a - h a) + ((as.map g).sum - (as.map h).sum)| := by ring_nf
        _ ≤ _ := this
    have h4 : ((as.length + 1 : ℕ) : ℚ) * ε = (as.length : ℚ) * ε + ε := by
      push_cast
      ring
    rw [h4]
    linarith

theorem sum_map_div_mul {α : Type} (l : List α) (f : α → ℤ) (T : ℚ) :
    (l.map (fun c => (f c : ℚ) / T * 100)).sum = ((l.map f).sum : ℚ) / T * 100 := by
  induction l with
  | nil => simp
  | cons a as ih =>
    simp only [List.map_cons, List.sum_cons, ih]
    push_cast
    ring

theorem marketShare_of_mem_competitors {creators : List CreatorProfile}
    {c : CompetitorAnalysis} (hc : c ∈ (mkLandscape creators).competitors) :
    ∃ p ∈ creators, c.marketShare =
      (analyzeOne (totalFollowersOf creators) (totalLikesOf creators) p).marketShare := by
  rw [competitors_mkLandscape, rankAssign] at hc
  rcases List.mem_map.mp hc with ⟨q, hq, hqc⟩
  subst hqc
  have hq2 : q.2 ∈ sortDescBy followersKey (derivedAnalyses creators) := by
    have hmem : q.2 ∈ (sortDescBy followersKey (derivedAnalyses creators)).enum.map
        Prod.snd := List.mem_map_of_mem Prod.snd hq
    rwa [List.enum_map_snd] at hmem
  have hq3 : q.2 ∈ derivedAnalyses creators := mem_sortDescBy.mp hq2
  rcases List.mem_map.mp hq3 with ⟨p, hp, hpq⟩
  refine ⟨p, hp, ?_⟩
  show q.2.marketShare = _
  rw [hpq]

theorem map_marketShareF_competitors_perm (creators : List CreatorProfile) :
    ((mkLandscape creators).competitors.map (fun c => c.marketShare.followers)).Perm
      ((derivedAnalyses creators).map (fun c => c.marketShare.followers)) := by
  rw [competitors_mkLandscape,
    map_comp_rankAssign (fun c => c.marketShare.followers) (fun c n => rfl)]
  exact (sortDescBy_perm followersKey (derivedAnalyses creators)).map _

/-- C5: on every successful landscape run, if totalFollowers is positive
the marketShare.followers values over all competitors sum to 100 within the
accumulated rounding tolerance (each share is rounded to two decimals, so
the sum is within N/200 of 100); and whenever totalFollowers (respectively
totalLikes) is zero every market-share value is 0 rather than the result
of a division by zero. -/
theorem C5_market_share (creators : List CreatorProfile) (ls : LandscapeResult)
    (h : analyzeCompetitiveLandscape creators = .ok ls) :
    (0 < totalFollowersOf creators →
      |(ls.competitors.map (fun c => c.marketShare.followers)).sum - 100| ≤
        (creators.length : ℚ) / 200) ∧
    (totalFollowersOf creators = 0 →
      ∀ c ∈ ls.competitors, c.marketShare.followers = 0) ∧
    (totalLikesOf creators = 0 →
      ∀ c ∈ ls.competitors, c.marketShare.likes = 0) := by
  rcases analyzeCompetitiveLandscape_ok h with ⟨hlen, hls⟩
  subst hls
  refine ⟨?_, ?_, ?_⟩
  · intro hT
    have hTq : (0 : ℚ) < ((totalFollowersOf creators : ℤ) : ℚ) := by exact_mod_cast hT
    have hsum1 : ((mkLandscape creators).competitors.map
        (fun c => c.marketShare.followers)).sum =
        ((derivedAnalyses creators).map (fun c => c.marketShare.followers)).sum :=
      (map_marketShareF_competitors_perm creators).sum_eq
    have hshare : ∀ p ∈ creators,
        (analyzeOne (totalFollowersOf creators) (totalLikesOf creators)
          p).marketShare.followers =
        (jsRound ((jsOr p.followers 0 : ℚ) /
          ((totalFollowersOf creators : ℤ) : ℚ) * 10000) : ℚ) / 100 := by
      intro p _
      simp only [analyzeOne]
      rw [if_pos hT]
    have hsum2 : ((derivedAnalyses creators).map
        (fun c => c.marketShare.followers)).sum =
        (creators.map (fun p => (jsRound ((jsOr p.followers 0 : ℚ) /
          ((totalFollowersOf creators : ℤ) : ℚ) * 10000) : ℚ) / 100)).sum := by
      rw [derivedAnalyses, List.map_map]
      exact congrArg List.sum (List.map_congr_left (fun p hp => hshare p hp))
    have happrox := sum_map_abs_le
      (fun p => (jsRound ((jsOr p.followers 0 : ℚ) /
        ((totalFollowersOf creators : ℤ) : ℚ) * 10000) : ℚ) / 100)
      (fun p => (jsOr p.followers 0 : ℚ) /
        ((totalFollowersOf creators : ℤ) : ℚ) * 100)
      (1/200) creators
      (fun p _ => share_abs_le ((jsOr p.followers 0 : ℚ) /
        ((totalFollowersOf creators : ℤ) : ℚ)))
    have hexact : (creators.map (fun p => (jsOr p.followers 0 : ℚ) /
        ((totalFollowersOf creators : ℤ) : ℚ) * 100)).sum = 100 := by
      rw [sum_map_div_mul creators (fun p => jsOr p.followers 0)
        ((totalFollowersOf creators : ℤ) : ℚ)]
      rw [show (creators.map (fun p => jsOr p.followers 0)).sum =
        totalFollowersOf creators from rfl]
      field_simp
    rw [hsum1, hsum2]
    rw [hexact] at happrox
    calc |(creators.map (fun p => (jsRound ((jsOr p.followers 0 : ℚ) /
            ((totalFollowersOf creators : ℤ) : ℚ) * 10000) : ℚ) / 100)).sum - 100| ≤
          creators.length * (1/200) := happrox
      _ = (creators.length : ℚ) / 200 := by ring
  · intro hT c hc
    rcases marketShare_of_mem_competitors hc with ⟨p, _, hms⟩
    rw [hms]
    simp only [analyzeOne]
    rw [if_neg (by omega)]
  · intro hT c hc
    rcases marketShare_of_mem_competitors hc with ⟨p, _, hms⟩
    rw [hms]
    simp only [analyzeOne]
    rw [if_neg (by omega)]

/-- C5 witness: the market-share theorem at a concrete two-creator
landscape with positive total followers. -/
theorem C5_market_share_witness :
    |((mkLandscape [profUpperX, profLowerX]).competitors.map
      (fun c => c.marketShare.followers)).sum - 100| ≤
      ((List.length [profUpperX, profLowerX] : ℕ) : ℚ) / 200 :=
  (C5_market_share [profUpperX, profLowerX] (mkLandscape [profUpperX, profLowerX])
    (by with_unfolding_all rfl)).1
    (by rw [show totalFollowersOf [profUpperX, profLowerX] = 300 from by
      with_unfolding_all rfl]; norm_num)

/-- C3: in every successful benchmarkCreator run each of the three
dimensions reports percentile = round((1 - (rank-1)/totalCount) * 100) with
totalCount the size of the combined set (competitors plus target), the
percentile lies in [0, 100], rank 1 gives percentile 100 and rank N of N
gives round(100/N); the engagement and growth ranks are the 1-based
position of the target in a fresh descending sort of the full combined
ranked set by that dimension. -/
theorem C3_percentiles (target : CreatorProfile) (cs : List CreatorProfile)
    (r : BenchmarkResult) (h : benchmarkCreator (some target) cs = .ok r) :
    (r.followersBenchmark.total = cs.length + 1 ∧
      r.engagementBenchmark.total = cs.length + 1 ∧
      r.growthBenchmark.total = cs.length + 1) ∧
    (r.followersBenchmark.rank = (r.target.rank : ℤ) ∧
      r.engagementBenchmark.rank =
        jsFindIndex (fun c => c.username == target.username)
          (sortDescBy engagementKey (landscapeCompetitors (target :: cs))) + 1 ∧
      r.growthBenchmark.rank =
        jsFindIndex (fun c => c.username == target.username)
          (sortDescBy growthKey (landscapeCompetitors (target :: cs))) + 1) ∧
    (r.followersBenchmark.percentile = jsRound ((1 -
        ((r.followersBenchmark.rank : ℚ) - 1) / ((cs.length + 1 : ℕ) : ℚ)) * 100) ∧
      0 ≤ r.followersBenchmark.percentile ∧ r.followersBenchmark.percentile ≤ 100 ∧
      (r.followersBenchmark.rank = 1 → r.followersBenchmark.percentile = 100) ∧
      (r.followersBenchmark.rank = ((cs.length + 1 : ℕ) : ℤ) →
        r.followersBenchmark.percentile = jsRound (100 / ((cs.length + 1 : ℕ) : ℚ)))) ∧
    (r.engagementBenchmark.percentile = jsRound ((1 -
        ((r.engagementBenchmark.rank : ℚ) - 1) / ((cs.length + 1 : ℕ) : ℚ)) * 100) ∧
      0 ≤ r.engagementBenchmark.percentile ∧ r.engagementBenchmark.percentile ≤ 100 ∧
      (r.engagementBenchmark.rank = 1 → r.engagementBenchmark.percentile = 100) ∧
      (r.engagementBenchmark.rank = ((cs.length + 1 : ℕ) : ℤ) →
        r.engagementBenchmark.percentile = jsRound (100 / ((cs.length + 1 : ℕ) : ℚ)))) ∧
    (r.growthBenchmark.percentile = jsRound ((1 -
        ((r.growthBenchmark.rank : ℚ) - 1) / ((cs.length + 1 : ℕ) : ℚ)) * 100) ∧
      0 ≤ r.growthBenchmark.percentile ∧ r.growthBenchmark.percentile ≤ 100 ∧
      (r.growthBenchmark.rank = 1 → r.growthBenchmark.percentile = 100) ∧
      (r.growthBenchmark.rank = ((cs.length + 1 : ℕ) : ℤ) →
        r.growthBenchmark.percentile = jsRound (100 / ((cs.length + 1 : ℕ) : ℚ)))) := by
  rcases benchmarkCreator_ok_elim h with ⟨ls, ta, hls, hf, hr⟩
  subst hr
  rcases analyzeCompetitiveLandscape_ok hls with ⟨hlen, hls2⟩
  subst hls2
  have hlc : landscapeCompetitors (target :: cs) =
      (mkLandscape (target :: cs)).competitors := by
    rw [landscapeCompetitors, hls]
  have hcomplen : (mkLandscape (target :: cs)).competitors.length = cs.length + 1 := by
    rw [length_competitors_mkLandscape]
    simp
  have hta : ta ∈ (mkLandscape (target :: cs)).competitors :=
    List.mem_of_find?_eq_some hf
  have htaR : 1 ≤ ta.rank ∧ ta.rank ≤ cs.length + 1 := by
    rw [competitors_mkLandscape] at hta
    have hb := rank_bounds_of_mem_rankAssign hta
    rwa [length_sortDescBy, length_derivedAnalyses, List.length_cons] at hb
  have hfb1 : (1 : ℤ) ≤ (ta.rank : ℤ) := by exact_mod_cast htaR.1
  have hfb2 : (ta.rank : ℤ) ≤ ((cs.length + 1 : ℕ) : ℤ) := by exact_mod_cast htaR.2
  have hpres : ∃ a ∈ (mkLandscape (target :: cs)).competitors,
      a.username = target.username :=
    exists_username_competitors (List.mem_cons_self target cs)
  have hpresE : ∃ a ∈ sortDescBy engagementKey (mkLandscape (target :: cs)).competitors,
      (a.username == target.username) = true := by
    rcases hpres with ⟨a, ha, hau⟩
    exact ⟨a, mem_sortDescBy.mpr ha, by simp [hau]⟩
  have hpresG : ∃ a ∈ sortDescBy growthKey (mkLandscape (target :: cs)).competitors,
      (a.username == target.username) = true := by
    rcases hpres with ⟨a, ha, hau⟩
    exact ⟨a, mem_sortDescBy.mpr ha, by simp [hau]⟩
  have hE := jsFindIndex_bounds hpresE
  have hG := jsFindIndex_bounds hpresG
  rw [length_sortDescBy, hcomplen] at hE hG
  have hEb1 : (1 : ℤ) ≤ jsFindIndex (fun c => c.username == target.username)
      (sortDescBy engagementKey (mkLandscape (target :: cs)).competitors) + 1 := by
    omega
  have hEb2 : jsFindIndex (fun c => c.username == target.username)
      (sortDescBy engagementKey (mkLandscape (target :: cs)).competitors) + 1 ≤
      ((cs.length + 1 : ℕ) : ℤ) := by
    have := hE.2
    push_cast at this ⊢
    omega
  have hGb1 : (1 : ℤ) ≤ jsFindIndex (fun c => c.username == target.username)
      (sortDescBy growthKey (mkLandscape (target :: cs)).competitors) + 1 := by
    omega
  have hGb2 : jsFindIndex (fun c => c.username == target.username)
      (sortDescBy growthKey (mkLandscape (target :: cs)).competitors) + 1 ≤
      ((cs.length + 1 : ℕ) : ℤ) := by
    have := hG.2
    push_cast at this ⊢
    omega
  refine ⟨⟨rfl, rfl, rfl⟩, ⟨rfl, ?_, ?_⟩, ?_, ?_, ?_⟩
  · rw [hlc]
    rfl
  · rw [hlc]
    rfl
  · exact ⟨rfl, (percentile_block hfb1 hfb2).1, (percentile_block hfb1 hfb2).2.1,
      (percentile_block hfb1 hfb2).2.2.1, (percentile_block hfb1 hfb2).2.2.2⟩
  · exact ⟨rfl, (percentile_block hEb1 hEb2).1, (percentile_block hEb1 hEb2).2.1,
      (percentile_block hEb1 hEb2).2.2.1, (percentile_block hEb1 hEb2).2.2.2⟩
  · exact ⟨rfl, (percentile_block hGb1 hGb2).1, (percentile_block hGb1 hGb2).2.1,
      (percentile_block hGb1 hGb2).2.2.1, (percentile_block hGb1 hGb2).2.2.2⟩

/-- C3 witness: the percentile theorem at a concrete two-creator run; the
leading target of rank 2 in a set of 2 gets percentiles within [0, 100]. -/
theorem C3_percentiles_witness :
    0 ≤ (benchResultD profUpperX [profLowerX]).followersBenchmark.percentile ∧
    (benchResultD profUpperX [profLowerX]).followersBenchmark.percentile ≤ 100 :=
  ⟨((C3_percentiles profUpperX [profLowerX] (benchResultD profUpperX [profLowerX])
      (by with_unfolding_all rfl)).2.2.1).2.1,
   ((C3_percentiles profUpperX [profLowerX] (benchResultD profUpperX [profLowerX])
      (by with_unfolding_all rfl)).2.2.1).2.2.1⟩
